import Mathlib

/-!
# Verification of the simcolog leveled console logger

A shallow embedding of `src/mod.ts` (the `simcolog` logging utility).
Pure functions of the source become Lean functions; the observable side
effects of one emit call (prefix-function invocation, stream writes,
console printing, callback invocation) become an explicit list of
`Effect` events returned by the emit function, in the order the source
performs them.  JavaScript string primitives used by the source
(`padStart`, `slice`, `trim`, `Array.prototype.join`,
`Array.prototype.indexOf`, `endsWith`) are modelled by `js*` functions
below, faithful to their ECMAScript behavior on the inputs the source
feeds them.
-/

namespace Simcolog

/-- The six log severity levels, in order of severity
(`const levels: LogLevel[] = ["trace", "debug", "info", "warn", "error", "fatal"]`). -/
def levels : List String := ["trace", "debug", "info", "warn", "error", "fatal"]

/-- JS `Array.prototype.indexOf`: index of the first occurrence, or `-1` when absent. -/
def indexOf (xs : List String) (x : String) : Int :=
  match xs with
  | [] => -1
  | y :: ys =>
    if y = x then 0
    else
      let r := indexOf ys x
      if r = -1 then -1 else r + 1

/-- `shouldLog` from the source:
`levels.indexOf(level) >= levels.indexOf(options.level)`. -/
def shouldLog (configLevel level : String) : Bool :=
  decide (indexOf levels level ≥ indexOf levels configLevel)

/-- The `prefix` configuration field of `LoggerOptions`: a static string or a
function from the severity to a string (the field is named `prefix` in the
source; that word is a Lean keyword, hence `pfx` here). -/
inductive PfxConfig where
  | str (s : String)
  | fn (f : String → String)

/-- Prefix resolution from the emit body:
`typeof options.prefix === "function" ? options.prefix(level) : options.prefix ?? ""`. -/
def resolvePfx (p : PfxConfig) (level : String) : String :=
  match p with
  | .str s => s
  | .fn f => f level

/-- `LoggerOptions` from the source.  The `logCallback` function is kept as an
abstract value of type `C` (its invocation is recorded as an `Effect` event;
its body is outside the model). -/
structure LoggerOptions (C : Type) where
  level : String
  pfx : PfxConfig
  includeTimestamp : Bool
  stderr : Bool
  logCallback : C

/-- A `Partial<LoggerOptions>` value: each field present or absent. -/
structure OptPatch (C : Type) where
  level : Option String := none
  pfx : Option PfxConfig := none
  includeTimestamp : Option Bool := none
  stderr : Option Bool := none
  logCallback : Option C := none

/-- JS object spread `{...base, ...patch}` of a full options object with a
partial one: a present patch field wins, field by field. -/
def mergeOptions {C : Type} (base : LoggerOptions C) (o : OptPatch C) : LoggerOptions C :=
  { level := o.level.getD base.level
    pfx := o.pfx.getD base.pfx
    includeTimestamp := o.includeTimestamp.getD base.includeTimestamp
    stderr := o.stderr.getD base.stderr
    logCallback := o.logCallback.getD base.logCallback }

/-- JS object spread `{...a, ...b}` of two partial options objects. -/
def mergePatch {C : Type} (a b : OptPatch C) : OptPatch C :=
  { level := b.level.orElse fun _ => a.level
    pfx := b.pfx.orElse fun _ => a.pfx
    includeTimestamp := b.includeTimestamp.orElse fun _ => a.includeTimestamp
    stderr := b.stderr.orElse fun _ => a.stderr
    logCallback := b.logCallback.orElse fun _ => a.logCallback }

/-- Spreading a full options object makes every field present. -/
def patchOfOptions {C : Type} (o : LoggerOptions C) : OptPatch C :=
  { level := some o.level
    pfx := some o.pfx
    includeTimestamp := some o.includeTimestamp
    stderr := some o.stderr
    logCallback := some o.logCallback }

/-- `defaultOptions` from the source; the source's default callback is
`() => {}`, represented by the ambient value `noopCb : C`. -/
def defaultOptions {C : Type} (noopCb : C) : LoggerOptions C :=
  { level := "info"
    pfx := .str ""
    includeTimestamp := true
    stderr := false
    logCallback := noopCb }

/-- The two writable process streams the source can select. -/
inductive OutStream where
  | stdout
  | stderr
deriving DecidableEq

/-- The JS `typeof` operator applied to a string value yields `"string"`.
The source's stream selection tests `typeof "process"` — the string literal
`"process"`, not the global `process` object — so the operand is a string. -/
def jsTypeofOfStringValue : String := "string"

/-- Stream selection from `createLogger`:
`typeof "process" === "object" ? (options.stderr ? process.stderr : process.stdout) : null`. -/
def streamOf (stderrFlag : Bool) : Option OutStream :=
  if jsTypeofOfStringValue = "object" then
    some (if stderrFlag then OutStream.stderr else OutStream.stdout)
  else none

/-- One observable effect of an emit call.  `pfxCall` records an invocation of
a configured prefix function, `streamWrite` a `stream.write(s)`, `consoleLog`
a `console.log(s)`, and `callbackCall` an `options.logCallback(msg)` call of
the callback value `cb`. -/
inductive Effect (C : Type) where
  | pfxCall (level : String)
  | streamWrite (st : OutStream) (s : String)
  | consoleLog (s : String)
  | callbackCall (cb : C) (msg : String)
deriving DecidableEq

/-- The effect of evaluating the prefix-resolution line: a prefix function is
invoked (once, with the severity); a static prefix causes no effect. -/
def pfxTrace {C : Type} (p : PfxConfig) (level : String) : List (Effect C) :=
  match p with
  | .fn _ => [Effect.pfxCall level]
  | .str _ => []

/-- A clock reading, as the source observes it through
`date.getHours()`, `getMinutes()`, `getSeconds()`, `getMilliseconds()`. -/
structure Time where
  h : Nat
  m : Nat
  s : Nat
  ms : Nat

/-- JS `String.prototype.padStart(target, pad)` with a one-character pad
string, as the source uses it (`padStart(2, "0")`). -/
def jsPadStart (s : String) (target : Nat) (pad : Char) : String :=
  if s.length ≥ target then s
  else String.mk (List.replicate (target - s.length) pad) ++ s

/-- JS `String.prototype.slice(a, b)` for `0 ≤ a ≤ b`. -/
def jsSlice (s : String) (a b : Nat) : String :=
  String.mk ((s.data.take b).drop a)

/-- The source computes `(date.getMilliseconds() / 1000).toFixed(3)` on the
millisecond count `0 ≤ ms ≤ 999`.  For every such `ms` the IEEE double nearest
to `ms / 1000` rounds back to the exact thousandth under `toFixed(3)`, so the
result is the string `"0."` followed by `ms` zero-padded to three digits. -/
def toFixed3OfMs (ms : Nat) : String :=
  "0." ++ jsPadStart (Nat.repr ms) 3 '0'

/-- The timestamp segment from the emit body: when `includeTimestamp` is set,
`[HH:MM:SS.` plus `(ms / 1000).toFixed(3).slice(2, 5)` plus `] `;
otherwise the empty string. -/
def timestampOf (incl : Bool) (t : Time) : String :=
  if incl then
    "[" ++ jsPadStart (Nat.repr t.h) 2 '0'
      ++ ":" ++ jsPadStart (Nat.repr t.m) 2 '0'
      ++ ":" ++ jsPadStart (Nat.repr t.s) 2 '0'
      ++ "." ++ jsSlice (toFixed3OfMs t.ms) 2 5
      ++ "] "
  else ""

/-- The character class removed by JS `String.prototype.trim` on the ASCII
range (the Unicode space separators it also removes are not representable in
the source's literals and are not modelled). -/
def jsWhitespace (c : Char) : Bool :=
  c = ' ' ∨ c = '\t' ∨ c = '\n' ∨ c = '\r' ∨ c = '\x0b' ∨ c = '\x0c'

/-- JS `String.prototype.trim`: strip leading and trailing whitespace. -/
def jsTrim (s : String) : String :=
  String.mk (((s.data.dropWhile jsWhitespace).reverse.dropWhile jsWhitespace).reverse)

/-- JS `Array.prototype.join(sep)`: `[]` joins to `""`; otherwise the elements
interleaved with the separator. -/
def jsJoin (sep : String) : List String → String
  | [] => ""
  | x :: xs => xs.foldl (fun acc y => acc ++ sep ++ y) x

/-- JS `message.endsWith("\n")`: the last character is a newline. -/
def jsEndsWithNewline (s : String) : Bool :=
  s.data.getLast? = some '\n'

/-- The message part of the formatted line:
`(message + rest.join(" ")).trim()`. -/
def msgPart (message : String) (rest : List String) : String :=
  jsTrim (message ++ jsJoin " " rest)

/-- The final formatted line:
`` `${timestamp + prefix} ${(message + rest.join(" ")).trim()}` ``. -/
def formattedOf {C : Type} (o : LoggerOptions C) (level : String) (t : Time)
    (message : String) (rest : List String) : String :=
  timestampOf o.includeTimestamp t ++ resolvePfx o.pfx level ++ " " ++ msgPart message rest

/-- The emit closure built for one severity `level`, parameterized by the
construction-time `stream` value, evaluated at clock reading `now` on a call
with primary `message` and extra arguments `rest`.  Returns the effects in
source order: the filter guard first (a suppressed call returns nothing),
then prefix resolution, then output (console fallback when `stream` is null;
otherwise the line write followed by a newline write unless the original
primary message already ends in a newline), then the callback call. -/
def emitCore {C : Type} (o : LoggerOptions C) (stream : Option OutStream)
    (level : String) (now : Time) (message : String) (rest : List String) :
    List (Effect C) :=
  if shouldLog o.level level then
    pfxTrace o.pfx level
      ++ (match stream with
          | none => [Effect.consoleLog (formattedOf o level now message rest)]
          | some st =>
            [Effect.streamWrite st (formattedOf o level now message rest)]
              ++ (if jsEndsWithNewline message then [] else [Effect.streamWrite st "\n"]))
      ++ [Effect.callbackCall o.logCallback (formattedOf o level now message rest)]
  else []

/-- The emit method as the built logger runs it: `stream` is the value
computed once at construction from the `stderr` flag. -/
def emit {C : Type} (o : LoggerOptions C) (level : String) (now : Time)
    (message : String) (rest : List String) : List (Effect C) :=
  emitCore o (streamOf o.stderr) level now message rest

/-- The logger value: the model keeps the resolved options, which determine
every emit method (`emit`) and `modify`. -/
structure Logger (C : Type) where
  options : LoggerOptions C

/-- `createLogger`: resolve `{...defaultOptions, ...opts}` and bind it.
`noopCb` is the representation of the default callback `() => {}`. -/
def createLoggerWith {C : Type} (noopCb : C) (opts : OptPatch C) : Logger C :=
  ⟨mergeOptions (defaultOptions noopCb) opts⟩

/-- `modifyLogger`: `createLogger({ ...logger.options, ...opts })`. -/
def modifyLogger {C : Type} (noopCb : C) (lg : Logger C) (opts : OptPatch C) : Logger C :=
  createLoggerWith noopCb (mergePatch (patchOfOptions lg.options) opts)

/-- Is this effect an output (a stream write or a console print)? -/
def isOutputEffect {C : Type} : Effect C → Bool
  | .streamWrite _ _ => true
  | .consoleLog _ => true
  | _ => false

/-- Is this effect a stream write? -/
def isStreamWrite {C : Type} : Effect C → Bool
  | .streamWrite _ _ => true
  | _ => false

/-- Is this effect a callback invocation? -/
def isCallbackCall {C : Type} : Effect C → Bool
  | .callbackCall _ _ => true
  | _ => false

/-- Is this effect a prefix-function invocation? -/
def isPfxCall {C : Type} : Effect C → Bool
  | .pfxCall _ => true
  | _ => false

/-- The trace contains at least one output effect. -/
def hasOutput {C : Type} (e : List (Effect C)) : Bool :=
  e.any isOutputEffect

/-- The trace contains at least one callback invocation. -/
def hasCallback {C : Type} (e : List (Effect C)) : Bool :=
  e.any isCallbackCall

/-- The text that reaches the terminal: a stream write contributes its string
verbatim; `console.log` contributes its string followed by the newline that
`console.log` itself appends. -/
def outputText {C : Type} (e : List (Effect C)) : String :=
  e.foldl
    (fun acc x =>
      acc ++
        match x with
        | .streamWrite _ s => s
        | .consoleLog s => s ++ "\n"
        | _ => "")
    ""

/-- A zero-padded decimal rendering of `n`, `w` digits wide (the format the
spec describes for the timestamp components). -/
def zeroPad (w n : Nat) : String :=
  String.mk (List.replicate (w - (Nat.repr n).length) '0') ++ Nat.repr n

/-- A fixed clock reading used for concrete evaluations. -/
def t0 : Time := ⟨0, 0, 0, 0⟩

/-- Concrete options: minimum severity `warn`, empty static prefix, no
timestamp, stdout, unit callback. -/
def warnOpts : LoggerOptions Unit :=
  { level := "warn", pfx := .str "", includeTimestamp := false
    stderr := false, logCallback := () }

/-- Concrete options: minimum severity `info`, empty static prefix, no
timestamp, stderr flag set, unit callback. -/
def boomOpts : LoggerOptions Unit :=
  { level := "info", pfx := .str "", includeTimestamp := false
    stderr := true, logCallback := () }

/-- Concrete options: minimum severity `warn`, a function prefix, no
timestamp, stdout, unit callback. -/
def fnPfxOpts : LoggerOptions Unit :=
  { level := "warn", pfx := .fn (fun lv => "[" ++ lv ++ "]"), includeTimestamp := false
    stderr := false, logCallback := () }

/-- Concrete options: unrecognized minimum severity `"verbose"`, empty static
prefix, no timestamp, stdout, unit callback. -/
def verboseOpts : LoggerOptions Unit :=
  { level := "verbose", pfx := .str "", includeTimestamp := false
    stderr := false, logCallback := () }

/- ### Helper lemmas -/

/-- JS `indexOf` yields `-1` exactly on keys that do not occur. -/
theorem indexOf_eq_neg_one_of_not_mem :
    ∀ (xs : List String) (x : String), x ∉ xs → indexOf xs x = -1
  | [], _, _ => rfl
  | y :: ys, x, h => by
    have hyx : ¬ (y = x) := fun e => h (e ▸ List.mem_cons_self y ys)
    have hr : indexOf ys x = -1 :=
      indexOf_eq_neg_one_of_not_mem ys x (fun m => h (List.mem_cons_of_mem y m))
    simp [indexOf, hyx, hr]

/-- Every recognized severity has a nonnegative index. -/
theorem indexOf_levels_nonneg : ∀ S ∈ levels, (0 : Int) ≤ indexOf levels S := by
  decide

/-- The boolean filter agrees with the index comparison. -/
theorem shouldLog_true_iff (M S : String) :
    shouldLog M S = true ↔ indexOf levels M ≤ indexOf levels S := by
  simp [shouldLog, ge_iff_le]

/-- The boolean filter rejects exactly the strictly-lower indices. -/
theorem shouldLog_false_iff (M S : String) :
    shouldLog M S = false ↔ indexOf levels S < indexOf levels M := by
  simp [shouldLog, ge_iff_le, Int.not_le]

/-- A suppressed call produces no effects at all. -/
theorem emitCore_eq_nil_of_not_shouldLog {C : Type} (o : LoggerOptions C)
    (stream : Option OutStream) (level : String) (now : Time) (message : String)
    (rest : List String) (h : shouldLog o.level level = false) :
    emitCore o stream level now message rest = [] := by
  simp [emitCore, h]

/-- A non-suppressed call unfolds to prefix events, output events, then the
callback event. -/
theorem emitCore_eq_of_shouldLog {C : Type} (o : LoggerOptions C)
    (stream : Option OutStream) (level : String) (now : Time) (message : String)
    (rest : List String) (h : shouldLog o.level level = true) :
    emitCore o stream level now message rest =
      pfxTrace o.pfx level
        ++ (match stream with
            | none => [Effect.consoleLog (formattedOf o level now message rest)]
            | some st =>
              [Effect.streamWrite st (formattedOf o level now message rest)]
                ++ (if jsEndsWithNewline message then []
                    else [Effect.streamWrite st "\n"]))
        ++ [Effect.callbackCall o.logCallback (formattedOf o level now message rest)] := by
  simp [emitCore, h]

/-- A non-suppressed call always contains an output effect. -/
theorem hasOutput_emitCore_of_shouldLog {C : Type} (o : LoggerOptions C)
    (stream : Option OutStream) (level : String) (now : Time) (message : String)
    (rest : List String) (h : shouldLog o.level level = true) :
    hasOutput (emitCore o stream level now message rest) = true := by
  rw [emitCore_eq_of_shouldLog o stream level now message rest h]
  cases stream <;> simp [hasOutput, List.any_append, isOutputEffect]

/-- A non-suppressed call always contains a callback effect. -/
theorem hasCallback_emitCore_of_shouldLog {C : Type} (o : LoggerOptions C)
    (stream : Option OutStream) (level : String) (now : Time) (message : String)
    (rest : List String) (h : shouldLog o.level level = true) :
    hasCallback (emitCore o stream level now message rest) = true := by
  rw [emitCore_eq_of_shouldLog o stream level now message rest h]
  simp [hasCallback, List.any_append, isCallbackCall]

/- ### Claims -/

/-- C1: for every configured minimum severity among the six levels and every
emitted severity, the emit method produces an emission (an output effect and
a callback effect) iff `index(S) ≥ index(M)` in the ordering trace=0 … fatal=5,
and when `index(S) < index(M)` the call does nothing at all (empty effect
trace: no output, no callback). -/
theorem c1_severity_matrix {C : Type} (o : LoggerOptions C) (now : Time)
    (msg : String) (rest : List String) (S : String)
    (hM : o.level ∈ levels) (hS : S ∈ levels) :
    ((hasOutput (emit o S now msg rest) = true ∧
        hasCallback (emit o S now msg rest) = true) ↔
      indexOf levels S ≥ indexOf levels o.level) ∧
    (indexOf levels S < indexOf levels o.level → emit o S now msg rest = []) := by
  have _ := hM
  have _ := hS
  constructor
  · constructor
    · rintro ⟨hOut, -⟩
      by_contra hlt
      have hlt' : indexOf levels S < indexOf levels o.level := Int.not_le.mp hlt
      have hfalse : shouldLog o.level S = false := (shouldLog_false_iff _ _).mpr hlt'
      rw [emit, emitCore_eq_nil_of_not_shouldLog o _ S now msg rest hfalse] at hOut
      simp [hasOutput] at hOut
    · intro hge
      have h : shouldLog o.level S = true := (shouldLog_true_iff _ _).mpr hge
      exact ⟨hasOutput_emitCore_of_shouldLog o _ S now msg rest h,
        hasCallback_emitCore_of_shouldLog o _ S now msg rest h⟩
  · intro hlt
    exact emitCore_eq_nil_of_not_shouldLog o _ S now msg rest
      ((shouldLog_false_iff _ _).mpr hlt)

/-- Witness for C1 at minimum `warn` and emitted severity `error`: the
emission happens. -/
theorem c1_severity_matrix_witness :
    hasOutput (emit warnOpts "error" t0 "x" []) = true ∧
    hasCallback (emit warnOpts "error" t0 "x" []) = true :=
  (c1_severity_matrix warnOpts t0 "x" [] "error" (by decide) (by decide)).1.mpr
    (by decide)

/-- C2 fails as stated: `emit("info", "a", "b", "c")` assembles the message
`"ab c"` (the extras `"b"`, `"c"` are joined with one space before being
appended to `"a"`), not `"abc"`. -/
theorem c2_counterexample :
    msgPart "a" ["b", "c"] = "ab c" ∧ msgPart "a" ["b", "c"] ≠ "abc" := by
  decide

/-- C2 (amended): the extra arguments are joined with a single space, that
joined string is appended directly onto the primary message with no separator,
and the result is trimmed; `emit("info", "a", "b", "c")` yields `"ab c"`, and
zero extra arguments yield just the trimmed primary message. -/
theorem c2_message_assembly :
    (∀ (m b c : String), msgPart m [b, c] = jsTrim (m ++ (b ++ " " ++ c))) ∧
    (∀ m : String, msgPart m [] = jsTrim m) ∧
    msgPart "a" ["b", "c"] = "ab c" := by
  refine ⟨fun m b c => ?_, fun m => ?_, by decide⟩
  · simp [msgPart, jsJoin]
  · simp [msgPart, jsJoin]

/-- C3 names behavior the code does not have: the source guards stream
selection with the condition `typeof "process" === "object"`, whose operand is
the string literal `"process"`; its `typeof` is `"string"`, so the selected
stream is `null` for both flag values and every non-filtered emit takes the
`console.log` fallback — even when writable process streams exist.  At the
failing input (`stderr: true`, `.error("boom")`) the whole effect trace is a
console print plus the callback; no stream write occurs. -/
theorem c3_stream_always_console :
    (∀ b : Bool, streamOf b = none) ∧
    emit boomOpts "error" t0 "boom" [] =
      [Effect.consoleLog " boom", Effect.callbackCall () " boom"] := by
  refine ⟨fun b => rfl, by decide⟩

/-- C4: on the stream-write branch of a non-filtered emit, the stream writes
are exactly the formatted line, followed by one `"\n"` write iff the original
(untrimmed, pre-join) primary message does not already end in a newline. -/
theorem c4_trailing_newline {C : Type} (o : LoggerOptions C) (st : OutStream)
    (level : String) (now : Time) (msg : String) (rest : List String)
    (h : shouldLog o.level level = true) :
    (emitCore o (some st) level now msg rest).filter isStreamWrite =
      (if jsEndsWithNewline msg then
        [Effect.streamWrite st (formattedOf o level now msg rest)]
      else
        [Effect.streamWrite st (formattedOf o level now msg rest),
          Effect.streamWrite st "\n"]) := by
  rw [emitCore_eq_of_shouldLog o (some st) level now msg rest h]
  cases hp : o.pfx <;> cases hn : jsEndsWithNewline msg <;>
    simp [pfxTrace, List.filter_append, isStreamWrite, isCallbackCall, hn]

/-- Witness for C4: the message `"hi"` does not end in a newline, so one
newline write follows the line write. -/
theorem c4_trailing_newline_witness :
    shouldLog warnOpts.level "warn" = true ∧
    ((emitCore warnOpts (some OutStream.stdout) "warn" t0 "hi" []).filter isStreamWrite =
      (if jsEndsWithNewline "hi" then
        [Effect.streamWrite OutStream.stdout (formattedOf warnOpts "warn" t0 "hi" [])]
      else
        [Effect.streamWrite OutStream.stdout (formattedOf warnOpts "warn" t0 "hi" []),
          Effect.streamWrite OutStream.stdout "\n"])) :=
  ⟨by decide, c4_trailing_newline warnOpts OutStream.stdout "warn" t0 "hi" [] (by decide)⟩

/-- C5: the formatted line is the untrimmed `timestamp + prefix` segment, one
space, then the trimmed message (so a leading space arises when both segment
parts are empty), and the logger built with `includeTimestamp: false` and
static prefix `"P"` emits exactly `"P hi"` plus one trailing newline on
`.info("hi")`. -/
theorem c5_line_assembly :
    (∀ {C : Type} (o : LoggerOptions C) (level : String) (t : Time)
        (m : String) (r : List String),
      formattedOf o level t m r =
        (timestampOf o.includeTimestamp t ++ resolvePfx o.pfx level) ++ " " ++ msgPart m r) ∧
    (∀ t : Time,
      outputText
        (emit (createLoggerWith ()
            { pfx := some (PfxConfig.str "P"), includeTimestamp := some false }).options
          "info" t "hi" []) = "P hi\n") ∧
    (∀ t : Time, formattedOf boomOpts "info" t "hi" [] = " hi") :=
  ⟨fun _ _ _ _ _ => rfl, fun _ => rfl, fun _ => rfl⟩

/-- C6: `modify` merges the current resolved configuration with the overrides,
override winning per present field; the construction-time defaults (including
the default callback `noop`) never leak into the result, and in this pure
model the original logger's options are untouched by construction. -/
theorem c6_modify_merges {C : Type} (noop : C) (a : LoggerOptions C) (o : OptPatch C) :
    (modifyLogger noop ⟨a⟩ o).options = mergeOptions a o ∧
    (modifyLogger noop ⟨a⟩ o).options.level = o.level.getD a.level ∧
    (modifyLogger noop ⟨a⟩ o).options.pfx = o.pfx.getD a.pfx ∧
    (modifyLogger noop ⟨a⟩ o).options.includeTimestamp
      = o.includeTimestamp.getD a.includeTimestamp ∧
    (modifyLogger noop ⟨a⟩ o).options.stderr = o.stderr.getD a.stderr ∧
    (modifyLogger noop ⟨a⟩ o).options.logCallback = o.logCallback.getD a.logCallback := by
  have h : (modifyLogger noop ⟨a⟩ o).options = mergeOptions a o := by
    obtain ⟨l, p, i, st, cb⟩ := o
    cases l <;> cases p <;> cases i <;> cases st <;> cases cb <;> rfl
  exact ⟨h, by rw [h]; rfl, by rw [h]; rfl, by rw [h]; rfl, by rw [h]; rfl,
    by rw [h]; rfl⟩

/-- C7: a non-filtered emit invokes the configured callback exactly once, as
the last effect, after the output step, with the final formatted line as
argument (the same line the output step printed); a filtered emit never
invokes the callback. -/
theorem c7_callback_contract {C : Type} (o : LoggerOptions C)
    (stream : Option OutStream) (level : String) (now : Time) (msg : String)
    (rest : List String) :
    (shouldLog o.level level = true →
      ∃ pre : List (Effect C),
        emitCore o stream level now msg rest =
          pre ++ [Effect.callbackCall o.logCallback (formattedOf o level now msg rest)] ∧
        pre.all (fun x => !isCallbackCall x) = true ∧
        hasOutput pre = true ∧
        (Effect.consoleLog (formattedOf o level now msg rest) ∈ pre ∨
          ∃ st, stream = some st ∧
            Effect.streamWrite st (formattedOf o level now msg rest) ∈ pre)) ∧
    (shouldLog o.level level = false →
      hasCallback (emitCore o stream level now msg rest) = false) := by
  constructor
  · intro h
    rw [emitCore_eq_of_shouldLog o stream level now msg rest h]
    cases stream with
    | none =>
      refine ⟨pfxTrace o.pfx level
          ++ [Effect.consoleLog (formattedOf o level now msg rest)], ?_, ?_, ?_, ?_⟩
      · simp
      · cases hp : o.pfx <;> simp [pfxTrace, isCallbackCall]
      · cases hp : o.pfx <;> simp [pfxTrace, hasOutput, isOutputEffect]
      · left; simp
    | some st =>
      refine ⟨pfxTrace o.pfx level
          ++ ([Effect.streamWrite st (formattedOf o level now msg rest)]
            ++ (if jsEndsWithNewline msg then []
                else [Effect.streamWrite st "\n"])), ?_, ?_, ?_, ?_⟩
      · simp
      · cases hp : o.pfx <;> cases hn : jsEndsWithNewline msg <;>
          simp [pfxTrace, isCallbackCall, hn]
      · cases hp : o.pfx <;>
          simp [pfxTrace, hasOutput, isOutputEffect, List.any_append]
      · exact Or.inr ⟨st, rfl, by simp⟩
  · intro h
    rw [emitCore_eq_nil_of_not_shouldLog o stream level now msg rest h]
    rfl

/-- Witness for C7 at a non-filtered call: the callback effect is present. -/
theorem c7_callback_contract_witness :
    hasCallback (emitCore warnOpts none "warn" t0 "x" []) = true := by
  obtain ⟨pre, htr, -, -, -⟩ :=
    (c7_callback_contract warnOpts none "warn" t0 "x" []).1 (by decide)
  rw [htr]
  simp [hasCallback, List.any_append, isCallbackCall]

/-- Decimal renderings of numbers below `100` take at most two characters. -/
theorem repr_length_le_two : ∀ n, n < 100 → (Nat.repr n).length ≤ 2 := by
  decide

set_option maxRecDepth 10000 in
/-- Decimal renderings of numbers below `1000` take at most three characters. -/
theorem repr_length_le_three : ∀ n, n < 1000 → (Nat.repr n).length ≤ 3 := by
  decide

/-- Padding a decimal rendering with `padStart(w, "0")` is zero-padding. -/
theorem jsPadStart_eq_zeroPad (w n : Nat) : jsPadStart (Nat.repr n) w '0' = zeroPad w n := by
  unfold jsPadStart zeroPad
  split
  · rename_i hge
    have h0 : w - (Nat.repr n).length = 0 := Nat.sub_eq_zero_of_le hge
    refine String.ext ?_
    simp [h0, String.data_append]
  · rfl

/-- Zero-padding to width `w` yields exactly `w` characters when the bare
rendering fits. -/
theorem zeroPad_length {w n : Nat} (h : (Nat.repr n).length ≤ w) :
    (zeroPad w n).length = w := by
  unfold zeroPad
  rw [String.length_append, String.length_mk, List.length_replicate]
  exact Nat.sub_add_cancel h

/-- `slice(2, 5)` recovers the fraction digits of a `"0."`-headed string with
a three-character tail. -/
theorem jsSlice_two_five {d : String} (hd : d.length = 3) :
    jsSlice ("0." ++ d) 2 5 = d := by
  have hd' : d.data.length = 3 := hd
  have hdata : ("0." ++ d).data = '0' :: '.' :: d.data := rfl
  have h5 : ('0' :: '.' :: d.data).length ≤ 5 := by
    simp [hd']
  unfold jsSlice
  rw [hdata, List.take_of_length_le h5]
  show String.mk d.data = d
  rfl

/-- The millisecond segment of the timestamp is the zero-padded millisecond
count. -/
theorem msSlice_eq {ms : Nat} (h : ms < 1000) :
    jsSlice (toFixed3OfMs ms) 2 5 = zeroPad 3 ms := by
  unfold toFixed3OfMs
  rw [jsPadStart_eq_zeroPad]
  exact jsSlice_two_five (zeroPad_length (repr_length_le_three ms h))

/-- C8: with timestamps enabled the segment is exactly
`"[HH:MM:SS.mmm] "` — zero-padded two-digit hours, minutes and seconds and a
three-digit millisecond part in square brackets followed by one space — for
every clock reading, and with timestamps disabled the segment is the empty
string. -/
theorem c8_timestamp_format (t : Time) (hh : t.h < 24) (hm : t.m < 60)
    (hs : t.s < 60) (hms : t.ms < 1000) :
    timestampOf true t =
      "[" ++ zeroPad 2 t.h ++ ":" ++ zeroPad 2 t.m ++ ":" ++ zeroPad 2 t.s
        ++ "." ++ zeroPad 3 t.ms ++ "] " ∧
    (zeroPad 2 t.h).length = 2 ∧ (zeroPad 2 t.m).length = 2 ∧
    (zeroPad 2 t.s).length = 2 ∧ (zeroPad 3 t.ms).length = 3 ∧
    timestampOf false t = "" := by
  refine ⟨?_, ?_, ?_, ?_, ?_, rfl⟩
  · show "[" ++ jsPadStart (Nat.repr t.h) 2 '0'
        ++ ":" ++ jsPadStart (Nat.repr t.m) 2 '0'
        ++ ":" ++ jsPadStart (Nat.repr t.s) 2 '0'
        ++ "." ++ jsSlice (toFixed3OfMs t.ms) 2 5
        ++ "] " = _
    rw [jsPadStart_eq_zeroPad, jsPadStart_eq_zeroPad, jsPadStart_eq_zeroPad,
      msSlice_eq hms]
  · exact zeroPad_length (repr_length_le_two t.h (Nat.lt_trans hh (by decide)))
  · exact zeroPad_length (repr_length_le_two t.m (Nat.lt_trans hm (by decide)))
  · exact zeroPad_length (repr_length_le_two t.s (Nat.lt_trans hs (by decide)))
  · exact zeroPad_length (repr_length_le_three t.ms hms)

/-- Witness for C8 at the clock reading 03:04:05.067. -/
theorem c8_timestamp_format_witness :
    timestampOf true ⟨3, 4, 5, 67⟩ = "[03:04:05.067] " := by
  rw [(c8_timestamp_format ⟨3, 4, 5, 67⟩ (by decide) (by decide) (by decide)
    (by decide)).1]
  decide

/-- C9: an unrecognized configured minimum severity looks up to index `-1`,
so the filter comparison succeeds for every recognized severity and the emit
proceeds to produce output and invoke the callback. -/
theorem c9_unrecognized_level {C : Type} (o : LoggerOptions C)
    (stream : Option OutStream) (S : String) (now : Time) (msg : String)
    (rest : List String) (hmin : o.level ∉ levels) (hS : S ∈ levels) :
    indexOf levels o.level = -1 ∧ shouldLog o.level S = true ∧
    hasOutput (emitCore o stream S now msg rest) = true ∧
    hasCallback (emitCore o stream S now msg rest) = true := by
  have h1 : indexOf levels o.level = -1 :=
    indexOf_eq_neg_one_of_not_mem levels o.level hmin
  have h2 : shouldLog o.level S = true := by
    rw [shouldLog_true_iff, h1]
    exact le_trans (by decide) (indexOf_levels_nonneg S hS)
  exact ⟨h1, h2, hasOutput_emitCore_of_shouldLog o stream S now msg rest h2,
    hasCallback_emitCore_of_shouldLog o stream S now msg rest h2⟩

/-- Witness for C9 at the unrecognized minimum `"verbose"` and severity
`"trace"`. -/
theorem c9_unrecognized_level_witness :
    indexOf levels verboseOpts.level = -1 ∧
    shouldLog verboseOpts.level "trace" = true ∧
    hasOutput (emitCore verboseOpts none "trace" t0 "x" []) = true ∧
    hasCallback (emitCore verboseOpts none "trace" t0 "x" []) = true :=
  c9_unrecognized_level verboseOpts none "trace" t0 "x" [] (by decide) (by decide)

/-- C10: the severity filter is checked before prefix resolution, so a call
suppressed by the filter performs no observable effect at all — in particular
it never invokes a configured prefix function (no `pfxCall` effect), writes
nothing, and calls no callback. -/
theorem c10_suppressed_skips_pfx_fn {C : Type} (o : LoggerOptions C)
    (f : String → String) (stream : Option OutStream) (S : String) (now : Time)
    (msg : String) (rest : List String) (hf : o.pfx = PfxConfig.fn f)
    (hlt : indexOf levels S < indexOf levels o.level) :
    emitCore o stream S now msg rest = [] ∧
    (∀ l : String, Effect.pfxCall l ∉ emitCore o stream S now msg rest) ∧
    hasOutput (emitCore o stream S now msg rest) = false ∧
    hasCallback (emitCore o stream S now msg rest) = false := by
  have _ := hf
  have h0 : emitCore o stream S now msg rest = [] :=
    emitCore_eq_nil_of_not_shouldLog o stream S now msg rest
      ((shouldLog_false_iff _ _).mpr hlt)
  refine ⟨h0, ?_, ?_, ?_⟩ <;> simp [h0, hasOutput, hasCallback]

/-- Witness for C10: a `debug` call on a `warn`-filtered logger with a
function prefix produces no effects. -/
theorem c10_suppressed_skips_pfx_fn_witness :
    emitCore fnPfxOpts none "debug" t0 "x" [] = [] ∧
    hasOutput (emitCore fnPfxOpts none "debug" t0 "x" []) = false ∧
    hasCallback (emitCore fnPfxOpts none "debug" t0 "x" []) = false := by
  obtain ⟨h1, -, h3, h4⟩ :=
    c10_suppressed_skips_pfx_fn fnPfxOpts (fun lv => "[" ++ lv ++ "]") none
      "debug" t0 "x" [] rfl (by decide)
  exact ⟨h1, h3, h4⟩

end Simcolog
